import Mathlib

/-!
Shallow embedding of the school-clustering service
(`src/model/clustering_api.py`) for the verification of its
natural-language specification.

Modelling conventions:
* Python strings are modelled as `List Char` (abbreviated `Str`);
  the inputs relevant to the claims are ASCII, and the character
  classes below are the ASCII behaviour of Python's `re` and
  `str.lower`.
* Python exceptions are modelled by `Option`: a function that can
  raise returns `none` where the Python code would raise.
* The external joblib artifacts (tfidf vectorizer and kmeans model)
  are opaque collaborators; they are modelled by an environment
  field `ml : Str → Option Int` mapping the cleaned text to either
  an integer cluster id (`some c`, the value of
  `int(model.predict(vectorizer.transform([cleaned]))[0])`) or
  `none` when the external call raises.
* Wall-clock fields (`timestamp`, `processing_time_seconds`,
  `performance`) are out of scope and omitted from the records.
* Real arithmetic (Python float) is modelled over `ℚ`.
-/

/-- Python strings, modelled as lists of characters. -/
abbrev Str := List Char

/-- ASCII model of Python's regex class `\s` (also the character set
stripped by `str.strip()`): space, tab, newline, vertical tab,
form feed, carriage return. -/
def isSpaceChar (c : Char) : Bool :=
  c = ' ' || c = '\t' || c = '\n' || c = '\x0b' || c = '\x0c' || c = '\r'

/-- ASCII model of Python's regex class `\w`: letters, digits and
underscore. -/
def isWordChar (c : Char) : Bool :=
  c.isAlphanum || c = '_'

/-- Model of Python `str.lower()` on ASCII text. -/
def lowerStr (s : Str) : Str := s.map Char.toLower

/-- Boolean prefix test on character lists. -/
def isPrefixSeq : Str → Str → Bool
  | [], _ => true
  | _ :: _, [] => false
  | a :: p, b :: s => if a = b then isPrefixSeq p s else false

/-- Boolean substring test: does `pat` occur contiguously in `s`?
Used to model Python's `in` operator on strings. -/
def containsSeq (pat : Str) : Str → Bool
  | [] => pat.isEmpty
  | c :: rest => isPrefixSeq pat (c :: rest) || containsSeq pat rest

/-- Model of `re.sub(r'[^\w\s.,-]', '', text)`: keep only word
characters, whitespace, `.`, `,` and `-`. -/
def filterChars (s : Str) : Str :=
  s.filter (fun c => isWordChar c || isSpaceChar c || c = '.' || c = ',' || c = '-')

/-- Model of `re.sub(r'\s+', ' ', text)`: collapse every maximal run
of whitespace characters to a single space. -/
def collapseWs : Str → Str
  | [] => []
  | c :: rest =>
    if isSpaceChar c then
      match rest with
      | [] => [' ']
      | d :: _ => if isSpaceChar d then collapseWs rest else ' ' :: collapseWs rest
    else c :: collapseWs rest

/-- Fuel-driven worker for `replaceAll`; the fuel makes the
recursion structural so that concrete instances evaluate in the
kernel.  With fuel at least the length of the string it implements
Python `str.replace`: scan left to right, replace each
non-overlapping occurrence of `pat` by `rep`, resume scanning after
the inserted replacement. -/
def replaceAllF (pat rep : Str) : Nat → Str → Str
  | _, [] => []
  | 0, s => s
  | fuel + 1, c :: rest =>
    if isPrefixSeq pat (c :: rest) && !pat.isEmpty then
      rep ++ replaceAllF pat rep fuel ((c :: rest).drop pat.length)
    else
      c :: replaceAllF pat rep fuel rest

/-- Model of Python `str.replace(pat, rep)` (for nonempty `pat`). -/
def replaceAll (pat rep s : Str) : Str := replaceAllF pat rep s.length s

/-- Model of Python `str.strip()`. -/
def stripChars (s : Str) : Str :=
  ((s.dropWhile isSpaceChar).reverse.dropWhile isSpaceChar).reverse

/-- `text = text.replace('high school', 'highschool')` -/
def replStage1 (s : Str) : Str := replaceAll "high school".toList "highschool".toList s

/-- `text = text.replace('national', 'nat')` -/
def replStage2 (s : Str) : Str := replaceAll "national".toList "nat".toList s

/-- `text = text.replace('school', 'sch')` -/
def replStage3 (s : Str) : Str := replaceAll "school".toList "sch".toList s

/-- `text = text.replace('highschool', 'highsch')` -/
def replStage4 (s : Str) : Str := replaceAll "highschool".toList "highsch".toList s

/-- Embedding of `clean_text`.  The argument is an `Option` so that
the Python call `clean_text(None)` is representable: both `None` and
the empty string are falsy, so `if not text: return ""` returns the
empty string for either. -/
def clean_text (text : Option Str) : Str :=
  match text with
  | none => []
  | some t =>
    if t = [] then []
    else stripChars (replStage4 (replStage3 (replStage2 (replStage1
      (collapseWs (filterChars (lowerStr t)))))))

example : clean_text (some "HIGH SCHOOL".toList) = "highsch".toList := by decide
example : clean_text (some "".toList) = "".toList := by decide
example : clean_text none = [] := by decide
example : clean_text (some "HIGHSCHOOLOOL".toList) = "highsch".toList := by decide

/-- Python list indexing `l[i]` for `i : Int`: non-negative indexes
from the front, negative indexes from the back, out-of-range raises
IndexError (modelled `none`). -/
def pyGet {α : Type} (l : List α) (i : Int) : Option α :=
  if 0 ≤ i then l.get? i.toNat
  else if 0 ≤ i + l.length then l.get? (i + l.length).toNat else none

/-- The fixed cluster-name table from `get_cluster_name` (note the
double spaces in the first and third entries, exactly as in the
source). -/
def clustersTable : List Str :=
  ["Inabanga  Schools".toList, "Clarin Schools".toList, "Tubigon  Schools".toList]

/-- The fixed color table from `get_cluster_color`. -/
def colorsTable : List Str := ["#0088FE".toList, "#00C49F".toList, "#FFBB28".toList]

/-- Embedding of `get_cluster_name`: index the table when
`cluster_id < len(clusters)`, else return the f-string "Cluster "
followed by the id.  `none` models the IndexError raised by the
table indexing when `cluster_id < -3`. -/
def get_cluster_name (cluster_id : Int) : Option Str :=
  if cluster_id < 3 then pyGet clustersTable cluster_id
  else some ("Cluster ".toList ++ (toString cluster_id).toList)

/-- Embedding of `get_cluster_color`: `colors[cluster_id % len(colors)]`.
The index `cluster_id % 3` is always in range (Python `%` and Lean's
`Int.emod` both return a value in `[0, 3)` for modulus `3`), so the
`getD` default is never used. -/
def get_cluster_color (cluster_id : Int) : Str :=
  (pyGet colorsTable (cluster_id % 3)).getD []

example : get_cluster_name 0 = some "Inabanga  Schools".toList := by decide
example : get_cluster_name (-1) = some "Tubigon  Schools".toList := by decide
example : get_cluster_name (-4) = none := by decide
example : get_cluster_name 7 = some "Cluster 7".toList := by decide
example : get_cluster_color (-4) = "#FFBB28".toList := by decide

/-- The `School` pydantic model: two string fields. -/
structure School where
  name : Str
  municipality : Str
deriving DecidableEq

/-- Process environment fixed at startup: the `MODEL_LOADED` flag and
the opaque ML pipeline.  `ml cleaned` stands for
`int(model.predict(vectorizer.transform([cleaned]))[0])`; it returns
`none` when the external artifacts raise. -/
structure Env where
  modelLoaded : Bool
  ml : Str → Option Int

/-- The cleaned text fed to the ML pipeline: `clean_text` of the
f-string joining name and municipality with " | ". -/
def mlInput (school : School) : Str :=
  clean_text (some (school.name ++ " | ".toList ++ school.municipality))

/-- Embedding of `predict_single_ml`: returns the cluster and the
tag "ml", or `none` with the tag "ml_failed" when the external call
raises. -/
def predict_single_ml (env : Env) (school : School) : Option Int × Str :=
  match env.ml (mlInput school) with
  | some cluster => (some cluster, "ml".toList)
  | none => (none, "ml_failed".toList)

/-- The text scanned by the rule-based classifier: the lower-cased
space-joined f-string of name and municipality. -/
def ruleText (school : School) : Str :=
  lowerStr (school.name ++ [' '] ++ school.municipality)

/-- Embedding of `predict_single_rule`: keyword matching over
`ruleText`, in the fixed priority order of the source. -/
def predict_single_rule (school : School) : Int × Str :=
  if containsSeq "inabanga".toList (ruleText school)
      || containsSeq "dagohoy".toList (ruleText school) then
    (0, "rule_based".toList)
  else if containsSeq "tubigon".toList (ruleText school)
      || containsSeq "cawayanan".toList (ruleText school)
      || containsSeq "cabulijan".toList (ruleText school) then
    (2, "rule_based".toList)
  else
    (1, "rule_based".toList)

/-- The result dictionary of `predict_single`.  Optional fields model
keys that are present only in one of the two branches; the
`timestamp` key is out of scope and omitted. -/
structure Outcome where
  school : Str
  municipality : Str
  cluster_id : Option Int
  cluster_name : Option Str
  cluster_color : Option Str
  model_used : Str
  success : Bool
  error : Option Str
deriving DecidableEq

/-- The failure branch of `predict_single`.  The only exception
reachable inside the `try` block of the embedded fragment is the
IndexError from `get_cluster_name` (modelled by `none`), whose
`str(e)` is `"list index out of range"`. -/
def errorOutcome (school : School) : Outcome :=
  { school := if school.name = [] then "Unknown".toList else school.name
    municipality := if school.municipality = [] then "Unknown".toList else school.municipality
    cluster_id := none
    cluster_name := none
    cluster_color := none
    model_used := "error".toList
    success := false
    error := some "list index out of range".toList }

/-- The `(cluster, model_used)` pair selected by the branching at the
top of `predict_single`: ML path when the model is loaded, rule-based
fallback when it is absent or when the ML call failed. -/
def chosenPair (env : Env) (school : School) : Int × Str :=
  if env.modelLoaded then
    match predict_single_ml env school with
    | (some cluster, tag) => (cluster, tag)
    | (none, _) => predict_single_rule school
  else predict_single_rule school

/-- Embedding of `predict_single`: the selected cluster and tag, with
the defensive catch-all around the result construction. -/
def predict_single (env : Env) (school : School) : Outcome :=
  match get_cluster_name (chosenPair env school).1 with
  | some nm =>
    { school := if school.name = [] then "Unknown".toList else school.name
      municipality := if school.municipality = [] then "Unknown".toList else school.municipality
      cluster_id := some (chosenPair env school).1
      cluster_name := some nm
      cluster_color := some (get_cluster_color (chosenPair env school).1)
      model_used := (chosenPair env school).2
      success := true
      error := none }
  | none => errorOutcome school

/-- Embedding of the `/health` endpoint response: status string,
`model_loaded` flag, and the static 3-entry cluster table
(id, name, color); the timestamp is out of scope and omitted. -/
def health_check (env : Env) : Str × Bool × List (Int × Option Str × Str) :=
  ((if env.modelLoaded then "healthy" else "degraded").toList,
   env.modelLoaded,
   [(0, get_cluster_name 0, get_cluster_color 0),
    (1, get_cluster_name 1, get_cluster_color 1),
    (2, get_cluster_name 2, get_cluster_color 2)])

example :
    (predict_single ⟨false, fun _ => none⟩
      ⟨"INABANGA HIGH SCHOOL".toList, "INABANGA, BOHOL".toList⟩).cluster_id = some 0 := by
  decide

example :
    (predict_single ⟨true, fun _ => some (-5)⟩ ⟨"x".toList, "y".toList⟩).model_used
      = "error".toList := by
  decide

/-- Round-half-to-even on rationals, the rounding mode of Python's
built-in `round` (float rounding artifacts are abstracted away by
modelling Python floats as exact rationals). -/
def rhe (q : ℚ) : ℤ :=
  if q - (⌊q⌋ : ℚ) < 1/2 then ⌊q⌋
  else if 1/2 < q - (⌊q⌋ : ℚ) then ⌊q⌋ + 1
  else if ⌊q⌋ % 2 = 0 then ⌊q⌋ else ⌊q⌋ + 1

/-- Model of Python `round(q, 1)`: round-half-even at one decimal. -/
def pyRound1 (q : ℚ) : ℚ := (rhe (q * 10) : ℚ) / 10

/-- One entry of the `summary.clusters` list in the batch response. -/
structure ClusterStat where
  id : Int
  name : Option Str
  count : Nat
  percentage : ℚ
  color : Str

/-- The `summary` part of the batch response
(`processing_time_seconds` and `performance` are wall-clock fields,
out of scope and omitted). -/
structure Summary where
  total_schools : Nat
  successful_predictions : Nat
  failed_predictions : Nat
  clusters : List ClusterStat
  dominant_cluster : Int
  dominant_cluster_name : Option Str
  model_used : Str

/-- The two response shapes of the `/cluster-batch` endpoint: the
error shape carrying an error message and a success flag, returned
for an empty batch, and the normal shape with `results` and
`summary`. -/
inductive BatchResult where
  | error (msg : Str) (success : Bool)
  | ok (results : List Outcome) (summary : Summary)

/-- The accumulation loop of `get_cluster_batch`:
`successful += 1; cluster_counts[result["cluster_id"]] += 1` for each
successful outcome.  The accumulator is
(successful, count₀, count₁, count₂); `none` models the KeyError
raised when a successful outcome carries a cluster id outside the
dict keys 0, 1, 2 (the exception would propagate out of the
endpoint). -/
def tallyM : Nat × Nat × Nat × Nat → List Outcome → Option (Nat × Nat × Nat × Nat)
  | acc, [] => some acc
  | acc, r :: rs =>
    if r.success then
      match r.cluster_id with
      | some 0 => tallyM (acc.1 + 1, acc.2.1 + 1, acc.2.2.1, acc.2.2.2) rs
      | some 1 => tallyM (acc.1 + 1, acc.2.1, acc.2.2.1 + 1, acc.2.2.2) rs
      | some 2 => tallyM (acc.1 + 1, acc.2.1, acc.2.2.1, acc.2.2.2 + 1) rs
      | _ => none
    else tallyM acc rs

/-- `percentage = (count / successful * 100) if successful > 0 else 0`
followed by `round(percentage, 1)`. -/
def clusterPercentage (count successful : Nat) : ℚ :=
  pyRound1 (if 0 < successful then (count : ℚ) / (successful : ℚ) * 100 else 0)

/-- `max(cluster_counts.items(), key=lambda x: x[1])[0]`: Python's
`max` returns the first maximal item in iteration order, and the
dict iterates its keys 0, 1, 2 in insertion order: the running best
is (0, c0), replaced only by a strictly greater count. -/
def dominantOf (c0 c1 c2 : Nat) : Int :=
  if c2 > (if c1 > c0 then c1 else c0) then 2
  else if c1 > c0 then 1 else 0

/-- The `summary` dictionary built at the end of `get_cluster_batch`,
from the batch size, the successful count and the three per-cluster
counts. -/
def batchSummary (env : Env) (total successful c0 c1 c2 : Nat) : Summary :=
  { total_schools := total
    successful_predictions := successful
    failed_predictions := total - successful
    clusters :=
      [{ id := 0, name := get_cluster_name 0, count := c0
         percentage := clusterPercentage c0 successful, color := get_cluster_color 0 },
       { id := 1, name := get_cluster_name 1, count := c1
         percentage := clusterPercentage c1 successful, color := get_cluster_color 1 },
       { id := 2, name := get_cluster_name 2, count := c2
         percentage := clusterPercentage c2 successful, color := get_cluster_color 2 }]
    dominant_cluster := dominantOf c0 c1 c2
    dominant_cluster_name := get_cluster_name (dominantOf c0 c1 c2)
    model_used := (if env.modelLoaded then "ml" else "rule_based").toList }

/-- Embedding of the `/cluster-batch` endpoint.  The outer `none`
models the KeyError described at `tallyM` escaping the endpoint;
every other path returns a `BatchResult`. -/
def get_cluster_batch (env : Env) (schools : List School) : Option BatchResult :=
  if schools = [] then some (BatchResult.error "No schools provided".toList false)
  else
    match tallyM (0, 0, 0, 0) (schools.map (predict_single env)) with
    | none => none
    | some (successful, c0, c1, c2) =>
      some (BatchResult.ok (schools.map (predict_single env))
        (batchSummary env (schools.map (predict_single env)).length successful c0 c1 c2))

/-- Projection used by concrete checks: the `dominant_cluster` field
of a normal-shaped batch response, if any. -/
def dominantClusterOf : Option BatchResult → Option Int
  | some (BatchResult.ok _ sm) => some sm.dominant_cluster
  | _ => none

/-- Projection used by concrete checks: (total, successful, counts). -/
def countsOf : Option BatchResult → Option (Nat × Nat × Nat × Nat × Nat)
  | some (BatchResult.ok _ sm) =>
    some (sm.total_schools, sm.successful_predictions,
      (match sm.clusters with
       | [a, b, c] => (a.count, b.count, c.count)
       | _ => (0, 0, 0)))
  | _ => none

example :
    dominantClusterOf (get_cluster_batch ⟨false, fun _ => none⟩
      [⟨"inabanga east".toList, "bohol".toList⟩,
       ⟨"dagohoy elem".toList, "bohol".toList⟩,
       ⟨"plain elem".toList, "somewhere".toList⟩,
       ⟨"another elem".toList, "somewhere".toList⟩]) = some 0 := by decide

example :
    countsOf (get_cluster_batch ⟨false, fun _ => none⟩
      [⟨"tubigon west".toList, "bohol".toList⟩,
       ⟨"plain elem".toList, "somewhere".toList⟩]) = some (2, 2, 0, 1, 1) := by decide

/-! ### Lemmas about the string primitives -/

theorem isPrefixSeq_iff {p s : Str} : isPrefixSeq p s = true ↔ ∃ t, s = p ++ t := by
  induction p generalizing s with
  | nil => simp [isPrefixSeq]
  | cons a p ih =>
    cases s with
    | nil => simp [isPrefixSeq]
    | cons b s =>
      rw [show isPrefixSeq (a :: p) (b :: s) = if a = b then isPrefixSeq p s else false from rfl]
      by_cases hab : a = b
      · subst hab
        rw [if_pos rfl, ih]
        constructor
        · rintro ⟨t, rfl⟩; exact ⟨t, rfl⟩
        · rintro ⟨t, ht⟩; injection ht with _ h2; exact ⟨t, h2⟩
      · rw [if_neg hab]
        constructor
        · intro h; exact absurd h (by decide)
        · rintro ⟨t, ht⟩; injection ht with h1 _; exact absurd h1.symm hab

theorem containsSeq_cons_eq (p : Str) (c : Char) (s : Str) :
    containsSeq p (c :: s) = (isPrefixSeq p (c :: s) || containsSeq p s) := rfl

theorem containsSeq_of_isPrefixSeq {p s : Str} (h : isPrefixSeq p s = true) :
    containsSeq p s = true := by
  cases s with
  | nil =>
    rcases isPrefixSeq_iff.mp h with ⟨t, ht⟩
    rcases List.append_eq_nil.mp ht.symm with ⟨rfl, rfl⟩
    rfl
  | cons c s => simp [containsSeq_cons_eq, h]

theorem containsSeq_append_right {p s : Str} (u : Str) (h : containsSeq p s = true) :
    containsSeq p (u ++ s) = true := by
  induction u with
  | nil => simpa using h
  | cons c u ih => simp [containsSeq_cons_eq, ih]

theorem containsSeq_of_append_isPrefixSeq {u p s : Str}
    (h : isPrefixSeq (u ++ p) s = true) : containsSeq p s = true := by
  induction u generalizing s with
  | nil => exact containsSeq_of_isPrefixSeq (by simpa using h)
  | cons c u ih =>
    cases s with
    | nil => simp [isPrefixSeq] at h
    | cons b s =>
      rw [List.cons_append,
        show isPrefixSeq (c :: (u ++ p)) (b :: s)
          = if c = b then isPrefixSeq (u ++ p) s else false from rfl] at h
      by_cases hcb : c = b
      · rw [if_pos hcb] at h
        simp [containsSeq_cons_eq, ih h]
      · rw [if_neg hcb] at h; exact absurd h (by decide)

theorem containsSeq_mono_pat {u p X : Str} (h : containsSeq (u ++ p) X = true) :
    containsSeq p X = true := by
  induction X with
  | nil =>
    simp only [containsSeq, List.isEmpty_iff] at h ⊢
    rcases List.append_eq_nil.mp h with ⟨_, rfl⟩; rfl
  | cons c X ih =>
    rw [containsSeq_cons_eq, Bool.or_eq_true] at h
    rcases h with h | h
    · exact containsSeq_of_append_isPrefixSeq h
    · rw [containsSeq_cons_eq]; simp [ih h]

theorem isPrefixSeq_cons (a : Char) (p : Str) (b : Char) (s : Str) :
    isPrefixSeq (a :: p) (b :: s) = if a = b then isPrefixSeq p s else false := rfl

theorem isPrefixSeq_cons_iff {a : Char} {p : Str} {b : Char} {s : Str} :
    isPrefixSeq (a :: p) (b :: s) = true ↔ a = b ∧ isPrefixSeq p s = true := by
  rw [isPrefixSeq_cons]
  by_cases hab : a = b
  · simp [hab]
  · simp [hab]

theorem replaceAllF_cons (pat rep : Str) (fuel : Nat) (c : Char) (rest : Str) :
    replaceAllF pat rep (fuel + 1) (c :: rest)
      = if isPrefixSeq pat (c :: rest) && !pat.isEmpty then
          rep ++ replaceAllF pat rep fuel ((c :: rest).drop pat.length)
        else c :: replaceAllF pat rep fuel rest := rfl

theorem replaceAllF_zero (pat rep : Str) (s : Str) : replaceAllF pat rep 0 s = s := by
  cases s <;> rfl

theorem replaceAllF_nil (pat rep : Str) (fuel : Nat) : replaceAllF pat rep fuel [] = [] := by
  cases fuel <;> rfl

theorem replaceAllF_id_of_not_contains {p r : Str} (fuel : Nat) (s : Str)
    (h : containsSeq p s = false) : replaceAllF p r fuel s = s := by
  induction fuel generalizing s with
  | zero => exact replaceAllF_zero p r s
  | succ fuel ih =>
    cases s with
    | nil => exact replaceAllF_nil p r _
    | cons c rest =>
      rw [containsSeq_cons_eq, Bool.or_eq_false_iff] at h
      rw [replaceAllF_cons, if_neg (by simp [h.1]), ih rest h.2]

theorem replaceAll_id_of_not_contains {p r s : Str} (h : containsSeq p s = false) :
    replaceAll p r s = s :=
  replaceAllF_id_of_not_contains s.length s h

theorem isPrefixSeq_replaceAllF_head (pat rep' : Str) (r0 : Char) (fuel : Nat) (s p : Str)
    (hp : p.all (fun c => decide (c ≠ r0)) = true)
    (h : isPrefixSeq p (replaceAllF pat (r0 :: rep') fuel s) = true) :
    isPrefixSeq p s = true := by
  induction fuel generalizing s p with
  | zero => rw [replaceAllF_zero] at h; exact h
  | succ fuel ih =>
    cases s with
    | nil => rw [replaceAllF_nil] at h; exact h
    | cons c rest =>
      rw [replaceAllF_cons] at h
      by_cases hcond : (isPrefixSeq pat (c :: rest) && !pat.isEmpty) = true
      · rw [if_pos hcond] at h
        cases p with
        | nil => rfl
        | cons a p' =>
          rw [List.cons_append] at h
          have ha : a = r0 := (isPrefixSeq_cons_iff.mp h).1
          have : decide (a ≠ r0) = true := by
            have := List.all_eq_true.mp hp a (by simp)
            simpa using this
          exact absurd ha (of_decide_eq_true this)
      · rw [if_neg hcond] at h
        cases p with
        | nil => rfl
        | cons a p' =>
          rcases isPrefixSeq_cons_iff.mp h with ⟨rfl, h'⟩
          have hp' : p'.all (fun c => decide (c ≠ r0)) = true := by
            rw [List.all_cons, Bool.and_eq_true] at hp
            exact hp.2
          rw [isPrefixSeq_cons, if_pos rfl]
          exact ih rest p' hp' h'

/-- Replacing `"school"` by `"sch"` cannot leave or create an
occurrence of `"school"` unless the input contains `"schoolool"`
(the replacement `"sch"` followed by a literal `"ool"`). -/
theorem not_contains_school_after_stage3 (fuel : Nat) :
    ∀ s : Str, s.length ≤ fuel → containsSeq "schoolool".toList s = false →
      containsSeq "school".toList (replaceAllF "school".toList "sch".toList fuel s) = false := by
  induction fuel with
  | zero =>
    intro s hlen _
    have : s = [] := List.eq_nil_of_length_eq_zero (Nat.le_zero.mp hlen)
    subst this
    rw [replaceAllF_nil]; decide
  | succ fuel ih =>
    intro s hlen h9
    cases s with
    | nil => rw [replaceAllF_nil]; decide
    | cons c rest =>
      rw [replaceAllF_cons]
      by_cases hcond : (isPrefixSeq "school".toList (c :: rest) && !("school".toList).isEmpty) = true
      · rw [if_pos hcond]
        have hpre : isPrefixSeq "school".toList (c :: rest) = true := by
          rw [Bool.and_eq_true] at hcond; exact hcond.1
        obtain ⟨t, ht⟩ := isPrefixSeq_iff.mp hpre
        rw [ht, List.drop_left]
        have hlt : (c :: rest).length = 6 + t.length := by
          rw [ht, List.length_append, show (("school".toList : Str)).length = 6 from rfl]
        have hlent : t.length ≤ fuel := by rw [hlt] at hlen; omega
        have h9t : containsSeq "schoolool".toList t = false := by
          cases hx : containsSeq "schoolool".toList t
          · rfl
          · have := containsSeq_append_right "school".toList hx
            rw [← ht] at this
            rw [this] at h9; cases h9
        set X := replaceAllF "school".toList "sch".toList fuel t with hX
        show containsSeq "school".toList ('s' :: 'c' :: 'h' :: X) = false
        rw [containsSeq_cons_eq, containsSeq_cons_eq, containsSeq_cons_eq]
        have off1 : isPrefixSeq "school".toList ('c' :: 'h' :: X) = false := by
          rw [show ("school".toList : Str) = 's' :: "chool".toList from rfl,
            isPrefixSeq_cons, if_neg (by decide)]
        have off2 : isPrefixSeq "school".toList ('h' :: X) = false := by
          rw [show ("school".toList : Str) = 's' :: "chool".toList from rfl,
            isPrefixSeq_cons, if_neg (by decide)]
        have off0 : isPrefixSeq "school".toList ('s' :: 'c' :: 'h' :: X) = false := by
          have hred : isPrefixSeq "school".toList ('s' :: 'c' :: 'h' :: X)
              = isPrefixSeq "ool".toList X := rfl
          rw [hred]
          cases hx : isPrefixSeq "ool".toList X
          · rfl
          · exfalso
            have hoolt : isPrefixSeq "ool".toList t = true := by
              refine isPrefixSeq_replaceAllF_head "school".toList "ch".toList 's'
                fuel t "ool".toList (by decide) ?_
              rw [hX] at hx
              exact hx
            obtain ⟨t', ht'⟩ := isPrefixSeq_iff.mp hoolt
            have : containsSeq "schoolool".toList (c :: rest) = true := by
              rw [ht, ht']
              refine containsSeq_of_isPrefixSeq (isPrefixSeq_iff.mpr ⟨t', ?_⟩)
              rfl
            rw [this] at h9; cases h9
        have hrec : containsSeq "school".toList X = false := ih t hlent h9t
        rw [off0, off1, off2, hrec]; rfl
      · rw [if_neg hcond]
        have hpre6 : isPrefixSeq "school".toList (c :: rest) = false := by
          cases hx : isPrefixSeq "school".toList (c :: rest)
          · rfl
          · exact absurd (by rw [Bool.and_eq_true]; exact ⟨hx, by decide⟩) hcond
        rw [containsSeq_cons_eq] at h9
        have h9rest : containsSeq "schoolool".toList rest = false := by
          rcases Bool.or_eq_false_iff.mp h9 with ⟨_, h2⟩; exact h2
        rw [containsSeq_cons_eq]
        have left : isPrefixSeq "school".toList
            (c :: replaceAllF "school".toList "sch".toList fuel rest) = false := by
          cases hx : isPrefixSeq "school".toList
              (c :: replaceAllF "school".toList "sch".toList fuel rest)
          · rfl
          · exfalso
            rw [show ("school".toList : Str) = 's' :: "chool".toList from rfl,
              isPrefixSeq_cons_iff] at hx
            rcases hx with ⟨rfl, hx2⟩
            have : isPrefixSeq "chool".toList rest = true :=
              isPrefixSeq_replaceAllF_head "school".toList "ch".toList 's'
                fuel rest "chool".toList (by decide) hx2
            have : isPrefixSeq "school".toList ('s' :: rest) = true := by
              rw [show ("school".toList : Str) = 's' :: "chool".toList from rfl,
                isPrefixSeq_cons, if_pos rfl]
              exact this
            rw [this] at hpre6; cases hpre6
        rw [left, ih rest (by simpa using Nat.le_of_succ_le_succ (by simpa using hlen)) h9rest]
        rfl

/-- Replacing `"national"` by `"nat"` cannot create an occurrence of
`"schoolool"`: the replacement starts with `'n'`, a character that
does not occur in `"schoolool"`. -/
theorem not_contains_schoolool_after_stage2 (fuel : Nat) :
    ∀ s : Str, s.length ≤ fuel → containsSeq "schoolool".toList s = false →
      containsSeq "schoolool".toList
        (replaceAllF "national".toList "nat".toList fuel s) = false := by
  induction fuel with
  | zero =>
    intro s hlen _
    have : s = [] := List.eq_nil_of_length_eq_zero (Nat.le_zero.mp hlen)
    subst this
    rw [replaceAllF_nil]; decide
  | succ fuel ih =>
    intro s hlen h9
    cases s with
    | nil => rw [replaceAllF_nil]; decide
    | cons c rest =>
      rw [replaceAllF_cons]
      by_cases hcond :
          (isPrefixSeq "national".toList (c :: rest) && !("national".toList).isEmpty) = true
      · rw [if_pos hcond]
        have hpre : isPrefixSeq "national".toList (c :: rest) = true := by
          rw [Bool.and_eq_true] at hcond; exact hcond.1
        obtain ⟨t, ht⟩ := isPrefixSeq_iff.mp hpre
        rw [ht, List.drop_left]
        have hlt : (c :: rest).length = 8 + t.length := by
          rw [ht, List.length_append, show (("national".toList : Str)).length = 8 from rfl]
        have hlent : t.length ≤ fuel := by rw [hlt] at hlen; omega
        have h9t : containsSeq "schoolool".toList t = false := by
          cases hx : containsSeq "schoolool".toList t
          · rfl
          · have := containsSeq_append_right "national".toList hx
            rw [← ht] at this
            rw [this] at h9; cases h9
        set X := replaceAllF "national".toList "nat".toList fuel t with hX
        show containsSeq "schoolool".toList ('n' :: 'a' :: 't' :: X) = false
        rw [containsSeq_cons_eq, containsSeq_cons_eq, containsSeq_cons_eq]
        have off0 : isPrefixSeq "schoolool".toList ('n' :: 'a' :: 't' :: X) = false := by
          rw [show ("schoolool".toList : Str) = 's' :: "choolool".toList from rfl,
            isPrefixSeq_cons, if_neg (by decide)]
        have off1 : isPrefixSeq "schoolool".toList ('a' :: 't' :: X) = false := by
          rw [show ("schoolool".toList : Str) = 's' :: "choolool".toList from rfl,
            isPrefixSeq_cons, if_neg (by decide)]
        have off2 : isPrefixSeq "schoolool".toList ('t' :: X) = false := by
          rw [show ("schoolool".toList : Str) = 's' :: "choolool".toList from rfl,
            isPrefixSeq_cons, if_neg (by decide)]
        rw [off0, off1, off2, ih t hlent h9t]; rfl
      · rw [if_neg hcond]
        rw [containsSeq_cons_eq, Bool.or_eq_false_iff] at h9
        rw [containsSeq_cons_eq]
        have left : isPrefixSeq "schoolool".toList
            (c :: replaceAllF "national".toList "nat".toList fuel rest) = false := by
          cases hx : isPrefixSeq "schoolool".toList
              (c :: replaceAllF "national".toList "nat".toList fuel rest)
          · rfl
          · exfalso
            rw [show ("schoolool".toList : Str) = 's' :: "choolool".toList from rfl,
              isPrefixSeq_cons_iff] at hx
            rcases hx with ⟨rfl, hx2⟩
            have hrest : isPrefixSeq "choolool".toList rest = true :=
              isPrefixSeq_replaceAllF_head "national".toList "at".toList 'n'
                fuel rest "choolool".toList (by decide) hx2
            have : isPrefixSeq "schoolool".toList ('s' :: rest) = true := by
              rw [show ("schoolool".toList : Str) = 's' :: "choolool".toList from rfl,
                isPrefixSeq_cons, if_pos rfl]
              exact hrest
            rw [this] at h9
            rcases h9 with ⟨h91, _⟩; cases h91
        rw [left, ih rest (Nat.le_of_succ_le_succ hlen) h9.2]; rfl

/-! ### Claims C5 and C6: the text normalizer -/

/-- C5: the text normalizer satisfies the specification's worked
examples: `normalize("HIGH SCHOOL") = "highsch"`, `normalize("") = ""`,
and `normalize(None) = ""` (`clean_text` is a total Lean function, so
no exception is possible on any input). -/
theorem c5_clean_text_examples :
    clean_text (some "HIGH SCHOOL".toList) = "highsch".toList ∧
    clean_text (some []) = [] ∧
    clean_text none = [] := by decide

/-- C6 counterexample: for the input `"highschoolool"` the first
substitution does not fire (there is no `"high school"` with a
space), yet the third replacement turns `"highschoolool"` into
`"highschool"` and the final `"highschool"→"highsch"` replacement
fires, so it is not a no-op. -/
theorem c6_counterexample :
    containsSeq "high school".toList "highschoolool".toList = false ∧
    replStage1 "highschoolool".toList = "highschoolool".toList ∧
    replStage4 (replStage3 (replStage2 (replStage1 "highschoolool".toList)))
      ≠ replStage3 (replStage2 (replStage1 "highschoolool".toList)) := by decide

/-- C6 (amended): in the ordered literal-replacement sequence of the
normalizer, the final `"highschool"→"highsch"` replacement is a no-op
for every input string on which the first substitution
`"high school"→"highschool"` did not fire, provided the string does
not contain the substring `"schoolool"` (when it does, the third
replacement can itself recreate `"highschool"`). -/
theorem c6_stage4_noop (s : Str)
    (h1 : containsSeq "high school".toList s = false)
    (h2 : containsSeq "schoolool".toList s = false) :
    replStage4 (replStage3 (replStage2 (replStage1 s)))
      = replStage3 (replStage2 (replStage1 s)) := by
  have e1 : replStage1 s = s := replaceAll_id_of_not_contains h1
  rw [e1]
  have hb : containsSeq "schoolool".toList (replStage2 s) = false :=
    not_contains_schoolool_after_stage2 s.length s le_rfl h2
  have ha : containsSeq "school".toList (replStage3 (replStage2 s)) = false :=
    not_contains_school_after_stage3 (replStage2 s).length (replStage2 s) le_rfl hb
  have hhs : containsSeq "highschool".toList (replStage3 (replStage2 s)) = false := by
    cases hx : containsSeq "highschool".toList (replStage3 (replStage2 s))
    · rfl
    · exfalso
      have hsch : containsSeq "school".toList (replStage3 (replStage2 s)) = true :=
        @containsSeq_mono_pat "high".toList "school".toList _ hx
      rw [hsch] at ha; exact Bool.noConfusion ha
  exact replaceAll_id_of_not_contains hhs

/-- C6 witness: a concrete run of the amended no-op statement on
`"national school x"`, where the second and third replacements do
rewrite the string. -/
theorem c6_stage4_noop_witness :
    containsSeq "high school".toList "national school x".toList = false ∧
    containsSeq "schoolool".toList "national school x".toList = false ∧
    replStage4 (replStage3 (replStage2 (replStage1 "national school x".toList)))
      = replStage3 (replStage2 (replStage1 "national school x".toList)) :=
  ⟨by decide, by decide, c6_stage4_noop "national school x".toList (by decide) (by decide)⟩

/-! ### Lemmas about the cluster lookup helpers and the service -/

theorem gcn_none_of_lt_neg3 (i : Int) (h : i < -3) : get_cluster_name i = none := by
  simp only [get_cluster_name, pyGet, clustersTable, List.length_cons, List.length_nil]
  rw [if_pos (by omega), if_neg (by omega), if_neg (by push_cast; omega)]

theorem gcn_of_ge3 (i : Int) (h : 3 ≤ i) :
    get_cluster_name i = some ("Cluster ".toList ++ (toString i).toList) := by
  unfold get_cluster_name
  rw [if_neg (by omega)]

theorem gcn_012 (c : Int) (h : c = 0 ∨ c = 1 ∨ c = 2) :
    ∃ nm, get_cluster_name c = some nm ∧ nm ≠ [] := by
  rcases h with rfl | rfl | rfl
  · exact ⟨"Inabanga  Schools".toList, by decide, by decide⟩
  · exact ⟨"Clarin Schools".toList, by decide, by decide⟩
  · exact ⟨"Tubigon  Schools".toList, by decide, by decide⟩

theorem gcc_mem (i : Int) :
    get_cluster_color i = "#0088FE".toList ∨ get_cluster_color i = "#00C49F".toList ∨
      get_cluster_color i = "#FFBB28".toList := by
  have h : i % 3 = 0 ∨ i % 3 = 1 ∨ i % 3 = 2 := by omega
  rcases h with h | h | h <;>
    · simp only [get_cluster_color, h]
      decide

theorem gcc_ne_nil (i : Int) : get_cluster_color i ≠ [] := by
  rcases gcc_mem i with h | h | h <;> rw [h] <;> decide

/-- The model availability contract of the specification: when the
external ML pipeline returns a cluster id, it is one of the three
fixed cluster ids (a 3-cluster kmeans model yields labels 0, 1, 2). -/
def Env.Valid (env : Env) : Prop :=
  ∀ t c, env.ml t = some c → 0 ≤ c ∧ c < 3

/-- Weaker hypothesis under which the batch endpoint cannot raise:
each ML result is either a valid cluster id (the prediction succeeds)
or below -3 (the prediction fails with an IndexError caught inside
`predict_single`, so the batch loop never sees an out-of-dict id). -/
def Env.BatchSafe (env : Env) : Prop :=
  ∀ t c, env.ml t = some c → (0 ≤ c ∧ c < 3) ∨ c < -3

theorem Env.Valid.batchSafe {env : Env} (h : Env.Valid env) : Env.BatchSafe env :=
  fun t c hc => Or.inl (h t c hc)

theorem rule_result (school : School) :
    ((predict_single_rule school).1 = 0 ∨ (predict_single_rule school).1 = 1 ∨
      (predict_single_rule school).1 = 2) ∧
    (predict_single_rule school).2 = "rule_based".toList := by
  unfold predict_single_rule
  split_ifs <;> simp

theorem chosen_cases (env : Env) (school : School) :
    (∃ c, env.modelLoaded = true ∧ env.ml (mlInput school) = some c ∧
      chosenPair env school = (c, "ml".toList)) ∨
    chosenPair env school = predict_single_rule school := by
  unfold chosenPair predict_single_ml
  cases hm : env.modelLoaded
  · right; rfl
  · cases hml : env.ml (mlInput school) with
    | none => right; simp
    | some c => left; exact ⟨c, rfl, rfl, by simp⟩

theorem chosen_mem_of_batchSafe (env : Env) (school : School) (h : Env.BatchSafe env) :
    ((chosenPair env school).1 = 0 ∨ (chosenPair env school).1 = 1 ∨
      (chosenPair env school).1 = 2) ∨ (chosenPair env school).1 < -3 := by
  rcases chosen_cases env school with ⟨c, _, hml, hpair⟩ | hpair
  · rw [hpair]
    rcases h _ _ hml with hc | hc
    · left; omega
    · right; exact hc
  · rw [hpair]
    left; exact (rule_result school).1

theorem chosen_mem_of_valid (env : Env) (school : School) (h : Env.Valid env) :
    (chosenPair env school).1 = 0 ∨ (chosenPair env school).1 = 1 ∨
      (chosenPair env school).1 = 2 := by
  rcases chosen_mem_of_batchSafe env school h.batchSafe with hc | hc
  · exact hc
  · exfalso
    rcases chosen_cases env school with ⟨c, _, hml, hpair⟩ | hpair
    · rw [hpair] at hc; rcases h _ _ hml with ⟨h1, _⟩; omega
    · rw [hpair] at hc
      rcases (rule_result school).1 with h1 | h1 | h1 <;> omega

/-- Shape of `predict_single` on the success branch. -/
theorem predict_single_of_gcn_some {env : Env} {school : School} {nm : Str}
    (hg : get_cluster_name (chosenPair env school).1 = some nm) :
    predict_single env school =
      { school := if school.name = [] then "Unknown".toList else school.name
        municipality := if school.municipality = [] then "Unknown".toList
          else school.municipality
        cluster_id := some (chosenPair env school).1
        cluster_name := some nm
        cluster_color := some (get_cluster_color (chosenPair env school).1)
        model_used := (chosenPair env school).2
        success := true
        error := none } := by
  unfold predict_single
  rw [hg]

/-- Shape of `predict_single` on the exception branch. -/
theorem predict_single_of_gcn_none {env : Env} {school : School}
    (hg : get_cluster_name (chosenPair env school).1 = none) :
    predict_single env school = errorOutcome school := by
  unfold predict_single
  rw [hg]

/-! ### Claim C4: the rule-based classifier -/

/-- C4: `predict_single_rule` is a total function; it scans the
lower-cased space-joined concatenation of name and municipality
(`ruleText`) in fixed priority order: cluster 0 for the
inabanga/dagohoy keywords (regardless of the tubigon keywords, so
cluster 0 wins when both sets occur), else cluster 2 for the
tubigon/cawayanan/cabulijan keywords, else cluster 1. -/
theorem c4_rule_classifier (school : School) :
    (predict_single_rule school).2 = "rule_based".toList ∧
    ((containsSeq "inabanga".toList (ruleText school)
        || containsSeq "dagohoy".toList (ruleText school)) = true →
      (predict_single_rule school).1 = 0) ∧
    ((containsSeq "inabanga".toList (ruleText school)
        || containsSeq "dagohoy".toList (ruleText school)) = false →
      (containsSeq "tubigon".toList (ruleText school)
        || containsSeq "cawayanan".toList (ruleText school)
        || containsSeq "cabulijan".toList (ruleText school)) = true →
      (predict_single_rule school).1 = 2) ∧
    ((containsSeq "inabanga".toList (ruleText school)
        || containsSeq "dagohoy".toList (ruleText school)) = false →
      (containsSeq "tubigon".toList (ruleText school)
        || containsSeq "cawayanan".toList (ruleText school)
        || containsSeq "cabulijan".toList (ruleText school)) = false →
      (predict_single_rule school).1 = 1) := by
  refine ⟨(rule_result school).2, ?_, ?_, ?_⟩
  · intro h1
    unfold predict_single_rule
    rw [if_pos h1]
  · intro h1 h2
    unfold predict_single_rule
    rw [if_neg (by simp only [h1]; decide), if_pos h2]
  · intro h1 h2
    unfold predict_single_rule
    rw [if_neg (by simp only [h1]; decide), if_neg (by simp only [h2]; decide)]

/-- C4 witness: a school whose text contains keywords of both the
cluster-0 and the cluster-2 sets is assigned cluster 0. -/
theorem c4_rule_classifier_witness :
    (containsSeq "inabanga".toList
        (ruleText ⟨"INABANGA TUBIGON HIGH SCHOOL".toList, "TUBIGON, BOHOL".toList⟩)
      || containsSeq "dagohoy".toList
        (ruleText ⟨"INABANGA TUBIGON HIGH SCHOOL".toList, "TUBIGON, BOHOL".toList⟩)) = true ∧
    containsSeq "tubigon".toList
      (ruleText ⟨"INABANGA TUBIGON HIGH SCHOOL".toList, "TUBIGON, BOHOL".toList⟩) = true ∧
    (predict_single_rule
      ⟨"INABANGA TUBIGON HIGH SCHOOL".toList, "TUBIGON, BOHOL".toList⟩).1 = 0 :=
  ⟨by decide, by decide,
    (c4_rule_classifier ⟨"INABANGA TUBIGON HIGH SCHOOL".toList, "TUBIGON, BOHOL".toList⟩).2.1
      (by decide)⟩

/-! ### Claims C9 and C10: the cluster table and its lookups -/

/-- C9 counterexample: the code's cluster-name table does not carry
the names stated in the claim: entries 0 and 2 have two spaces
before "Schools" (`"Inabanga  Schools"`, `"Tubigon  Schools"`), not
the single-spaced `"Inabanga Schools"` / `"Tubigon Schools"`. -/
theorem c9_counterexample :
    get_cluster_name 0 = some "Inabanga  Schools".toList ∧
    get_cluster_name 0 ≠ some "Inabanga Schools".toList ∧
    get_cluster_name 2 = some "Tubigon  Schools".toList ∧
    get_cluster_name 2 ≠ some "Tubigon Schools".toList := by decide

/-- C9 (amended): the fixed 3-entry cluster table maps id 0 to
`"Inabanga  Schools"` / `"#0088FE"`, id 1 to `"Clarin Schools"` /
`"#00C49F"`, id 2 to `"Tubigon  Schools"` / `"#FFBB28"` (names of
entries 0 and 2 with a double space, as in the source), and the same
`get_cluster_name`/`get_cluster_color` values appear in the health
response, in every successful prediction outcome, and in every batch
summary. -/
theorem c9_cluster_table :
    (get_cluster_name 0 = some "Inabanga  Schools".toList ∧
      get_cluster_color 0 = "#0088FE".toList ∧
      get_cluster_name 1 = some "Clarin Schools".toList ∧
      get_cluster_color 1 = "#00C49F".toList ∧
      get_cluster_name 2 = some "Tubigon  Schools".toList ∧
      get_cluster_color 2 = "#FFBB28".toList) ∧
    (∀ env : Env, (health_check env).2.2 =
      [(0, get_cluster_name 0, get_cluster_color 0),
       (1, get_cluster_name 1, get_cluster_color 1),
       (2, get_cluster_name 2, get_cluster_color 2)]) ∧
    (∀ (env : Env) (school : School), (predict_single env school).success = true →
      ∃ c, (predict_single env school).cluster_id = some c ∧
        (predict_single env school).cluster_name = get_cluster_name c ∧
        (predict_single env school).cluster_color = some (get_cluster_color c)) ∧
    (∀ (env : Env) (schools : List School) (rs : List Outcome) (sm : Summary),
      get_cluster_batch env schools = some (BatchResult.ok rs sm) →
      sm.clusters.map (fun st => (st.id, st.name, st.color)) =
        [(0, get_cluster_name 0, get_cluster_color 0),
         (1, get_cluster_name 1, get_cluster_color 1),
         (2, get_cluster_name 2, get_cluster_color 2)]) := by
  refine ⟨⟨by decide, by decide, by decide, by decide, by decide, by decide⟩,
    fun env => rfl, ?_, ?_⟩
  · intro env school hsucc
    cases hg : get_cluster_name (chosenPair env school).1 with
    | none =>
      rw [predict_single_of_gcn_none hg] at hsucc
      simp [errorOutcome] at hsucc
    | some nm =>
      rw [predict_single_of_gcn_some hg]
      exact ⟨(chosenPair env school).1, rfl, by rw [hg], rfl⟩
  · intro env schools rs sm h
    by_cases he : schools = []
    · rw [get_cluster_batch, if_pos he] at h
      simp at h
    · rw [get_cluster_batch, if_neg he] at h
      cases ht : tallyM (0, 0, 0, 0) (schools.map (predict_single env)) with
      | none => rw [ht] at h; simp at h
      | some q =>
        obtain ⟨k, a, b, c⟩ := q
        rw [ht] at h
        simp only [Option.some.injEq, BatchResult.ok.injEq] at h
        obtain ⟨_, h2⟩ := h
        rw [← h2]
        rfl

/-- C10 counterexample: `get_cluster_name` is not total on negative
ids: at id -4 the Python expression `clusters[-4]` on a 3-element
list raises IndexError (modelled by `none`) instead of returning a
table entry. -/
theorem c10_counterexample : get_cluster_name (-4) = none := by decide

/-- C10 (amended): `get_cluster_color` is total on all integers and
always returns the entry at index `id % 3` of the fixed color table;
`get_cluster_name` returns the table entry for 0 ≤ id ≤ 2, the
string `"Cluster "` followed by the id for id ≥ 3, the table entry
at index id+3 (Python negative indexing) for -3 ≤ id ≤ -1, and
raises IndexError (modelled `none`) exactly when id ≤ -4. -/
theorem c10_lookup_totality (i : Int) :
    (get_cluster_color i = "#0088FE".toList ∨ get_cluster_color i = "#00C49F".toList ∨
      get_cluster_color i = "#FFBB28".toList) ∧
    get_cluster_color i = get_cluster_color (i % 3) ∧
    (0 ≤ i → i < 3 →
      get_cluster_name i = clustersTable.get? i.toNat ∧ get_cluster_name i ≠ none) ∧
    (3 ≤ i → get_cluster_name i = some ("Cluster ".toList ++ (toString i).toList)) ∧
    (-3 ≤ i → i < 0 →
      get_cluster_name i = clustersTable.get? (i + 3).toNat ∧ get_cluster_name i ≠ none) ∧
    (i < -3 → get_cluster_name i = none) := by
  refine ⟨gcc_mem i, ?_, ?_, gcn_of_ge3 i, ?_, gcn_none_of_lt_neg3 i⟩
  · simp only [get_cluster_color]
    rw [Int.emod_emod_of_dvd i dvd_rfl]
  · intro h0 h3
    have : i = 0 ∨ i = 1 ∨ i = 2 := by omega
    rcases this with rfl | rfl | rfl
    · exact ⟨by decide, by decide⟩
    · exact ⟨by decide, by decide⟩
    · exact ⟨by decide, by decide⟩
  · intro h1 h2
    have : i = -1 ∨ i = -2 ∨ i = -3 := by omega
    rcases this with rfl | rfl | rfl
    · exact ⟨by decide, by decide⟩
    · exact ⟨by decide, by decide⟩
    · exact ⟨by decide, by decide⟩

/-- C10 witness: negative indexing at id -2 yields the existing
table entry at index 1. -/
theorem c10_lookup_totality_witness :
    get_cluster_name (-2) = clustersTable.get? ((-2 : Int) + 3).toNat ∧
    get_cluster_name (-2) ≠ none :=
  (c10_lookup_totality (-2)).2.2.2.2.1 (by decide) (by decide)

/-! ### Claims C1 and C2: the prediction service -/

/-- C1: `predict_single` is a total Lean function (so no exception
can escape) and records exactly one `model_used` tag per call: `"ml"`
when the model flag is set and the ML path yields a cluster id,
`"rule_based"` when the ML path failed (`ml_failed`) or when the
flag is unset — in both cases the rule-based result is used — and
`"error"` (with an error message) exactly on the caught-exception
branch, the only branch with `success = false`. -/
theorem c1_predict_single_dispatch (env : Env) (school : School) :
    ((predict_single env school).model_used = "ml".toList ∨
      (predict_single env school).model_used = "rule_based".toList ∨
      (predict_single env school).model_used = "error".toList) ∧
    (env.modelLoaded = true → ∀ c, env.ml (mlInput school) = some c → 0 ≤ c → c < 3 →
      (predict_single env school).model_used = "ml".toList ∧
      (predict_single env school).success = true ∧
      (predict_single env school).cluster_id = some c) ∧
    (env.modelLoaded = true → env.ml (mlInput school) = none →
      (predict_single env school).model_used = "rule_based".toList ∧
      (predict_single env school).cluster_id = some (predict_single_rule school).1) ∧
    (env.modelLoaded = false →
      (predict_single env school).model_used = "rule_based".toList ∧
      (predict_single env school).cluster_id = some (predict_single_rule school).1) ∧
    ((predict_single env school).success = false →
      (predict_single env school).model_used = "error".toList ∧
      (predict_single env school).error ≠ none) := by
  refine ⟨?_, ?_, ?_, ?_, ?_⟩
  · cases hg : get_cluster_name (chosenPair env school).1 with
    | none =>
      rw [predict_single_of_gcn_none hg]
      right; right; rfl
    | some nm =>
      rw [predict_single_of_gcn_some hg]
      rcases chosen_cases env school with ⟨c, _, _, hpair⟩ | hpair
      · left; rw [hpair]
      · right; left; rw [hpair]; exact (rule_result school).2
  · intro hm c hml hc0 hc3
    have hpair : chosenPair env school = (c, "ml".toList) := by
      simp [chosenPair, predict_single_ml, hm, hml]
    obtain ⟨nm, hnm, _⟩ := gcn_012 c (by omega)
    have hnm' : get_cluster_name (chosenPair env school).1 = some nm := by
      rw [hpair]; exact hnm
    rw [predict_single_of_gcn_some hnm']
    exact ⟨by rw [hpair], rfl, by rw [hpair]⟩
  · intro hm hml
    have hpair : chosenPair env school = predict_single_rule school := by
      simp [chosenPair, predict_single_ml, hm, hml]
    obtain ⟨nm, hnm, _⟩ := gcn_012 _ (rule_result school).1
    have hnm' : get_cluster_name (chosenPair env school).1 = some nm := by
      rw [hpair]; exact hnm
    rw [predict_single_of_gcn_some hnm']
    exact ⟨by rw [hpair]; exact (rule_result school).2, by rw [hpair]⟩
  · intro hm
    have hpair : chosenPair env school = predict_single_rule school := by
      simp [chosenPair, hm]
    obtain ⟨nm, hnm, _⟩ := gcn_012 _ (rule_result school).1
    have hnm' : get_cluster_name (chosenPair env school).1 = some nm := by
      rw [hpair]; exact hnm
    rw [predict_single_of_gcn_some hnm']
    exact ⟨by rw [hpair]; exact (rule_result school).2, by rw [hpair]⟩
  · intro hf
    cases hg : get_cluster_name (chosenPair env school).1 with
    | none =>
      rw [predict_single_of_gcn_none hg]
      exact ⟨rfl, by simp [errorOutcome]⟩
    | some nm =>
      rw [predict_single_of_gcn_some hg] at hf
      simp at hf

/-- C1 witness: with a loaded model whose pipeline returns cluster 2,
the outcome carries `model_used = "ml"`. -/
theorem c1_predict_single_dispatch_witness :
    (predict_single ⟨true, fun _ => some 2⟩ ⟨"x".toList, "y".toList⟩).model_used
        = "ml".toList ∧
    (predict_single ⟨true, fun _ => some 2⟩ ⟨"x".toList, "y".toList⟩).success = true ∧
    (predict_single ⟨true, fun _ => some 2⟩ ⟨"x".toList, "y".toList⟩).cluster_id = some 2 :=
  (c1_predict_single_dispatch ⟨true, fun _ => some 2⟩ ⟨"x".toList, "y".toList⟩).2.1
    rfl 2 rfl (by decide) (by decide)

/-- C2: under the specification's contract that the ML pipeline
yields only the fixed cluster ids (`Env.Valid`), a prediction
outcome has `success = true` exactly when it carries a cluster id in
0, 1, 2 together with the matching, non-empty cluster name and
color; and `success = false` implies an error message is present and
the three cluster fields are absent. -/
theorem c2_outcome_invariant (env : Env) (school : School) (hv : Env.Valid env) :
    ((predict_single env school).success = true ↔
      ∃ c, (predict_single env school).cluster_id = some c ∧
        (c = 0 ∨ c = 1 ∨ c = 2) ∧
        (predict_single env school).cluster_name = get_cluster_name c ∧
        (predict_single env school).cluster_name ≠ some [] ∧
        (predict_single env school).cluster_name ≠ none ∧
        (predict_single env school).cluster_color = some (get_cluster_color c) ∧
        get_cluster_color c ≠ []) ∧
    ((predict_single env school).success = false →
      (predict_single env school).error ≠ none ∧
      (predict_single env school).cluster_id = none ∧
      (predict_single env school).cluster_name = none ∧
      (predict_single env school).cluster_color = none) := by
  have hmem := chosen_mem_of_valid env school hv
  obtain ⟨nm, hnm, hnmne⟩ := gcn_012 _ hmem
  have hps := predict_single_of_gcn_some hnm
  constructor
  · constructor
    · intro _
      refine ⟨(chosenPair env school).1, by rw [hps], hmem, ?_, ?_, ?_, by rw [hps],
        gcc_ne_nil _⟩
      · rw [hps, hnm]
      · rw [hps]
        intro hcon
        injection hcon with h'
        exact hnmne h'
      · rw [hps]; simp
    · intro _; rw [hps]
  · intro hf
    rw [hps] at hf
    simp at hf

/-- C2 witness: the success shape at a concrete valid environment. -/
theorem c2_outcome_invariant_witness :
    ∃ c, (predict_single ⟨true, fun _ => some 1⟩ ⟨"a".toList, "b".toList⟩).cluster_id
        = some c ∧
      (c = 0 ∨ c = 1 ∨ c = 2) ∧
      (predict_single ⟨true, fun _ => some 1⟩ ⟨"a".toList, "b".toList⟩).cluster_name
        = get_cluster_name c ∧
      (predict_single ⟨true, fun _ => some 1⟩ ⟨"a".toList, "b".toList⟩).cluster_name
        ≠ some [] ∧
      (predict_single ⟨true, fun _ => some 1⟩ ⟨"a".toList, "b".toList⟩).cluster_name
        ≠ none ∧
      (predict_single ⟨true, fun _ => some 1⟩ ⟨"a".toList, "b".toList⟩).cluster_color
        = some (get_cluster_color c) ∧
      get_cluster_color c ≠ [] :=
  ((c2_outcome_invariant ⟨true, fun _ => some 1⟩ ⟨"a".toList, "b".toList⟩
      (fun t c h => by injection h with h'; subst h'; exact ⟨by decide, by decide⟩)).1).mp
    (by decide)

/-! ### Lemmas about the batch aggregation -/

theorem outcome_ok (env : Env) (h : Env.BatchSafe env) (school : School) :
    (predict_single env school).success = true →
      (predict_single env school).cluster_id = some 0 ∨
      (predict_single env school).cluster_id = some 1 ∨
      (predict_single env school).cluster_id = some 2 := by
  intro hsucc
  rcases chosen_mem_of_batchSafe env school h with hmem | hlt
  · obtain ⟨nm, hnm, _⟩ := gcn_012 _ hmem
    have hps := predict_single_of_gcn_some hnm
    rcases hmem with h0 | h0 | h0
    · left; rw [hps]; simp only [Option.some.injEq]; exact h0
    · right; left; rw [hps]; simp only [Option.some.injEq]; exact h0
    · right; right; rw [hps]; simp only [Option.some.injEq]; exact h0
  · rw [predict_single_of_gcn_none (gcn_none_of_lt_neg3 _ hlt)] at hsucc
    simp [errorOutcome] at hsucc

theorem tallyM_spec (rs : List Outcome) :
    ∀ a1 a2 a3 a4 : Nat,
      (∀ r ∈ rs, r.success = true →
        r.cluster_id = some 0 ∨ r.cluster_id = some 1 ∨ r.cluster_id = some 2) →
      ∃ k a b c, tallyM (a1, a2, a3, a4) rs = some (a1 + k, a2 + a, a3 + b, a4 + c) ∧
        a + b + c = k ∧ k ≤ rs.length := by
  induction rs with
  | nil =>
    intro a1 a2 a3 a4 _
    exact ⟨0, 0, 0, 0, by simp [tallyM], rfl, by simp⟩
  | cons r rs ih =>
    intro a1 a2 a3 a4 hok
    have hok' : ∀ x ∈ rs, x.success = true →
        x.cluster_id = some 0 ∨ x.cluster_id = some 1 ∨ x.cluster_id = some 2 :=
      fun x hx => hok x (by simp [hx])
    by_cases hs : r.success = true
    · rcases hok r (by simp) hs with h0 | h0 | h0
      · rcases ih (a1 + 1) (a2 + 1) a3 a4 hok' with ⟨k, a, b, c, heq, hsum, hlen⟩
        refine ⟨k + 1, a + 1, b, c, ?_, by omega, by simp only [List.length_cons]; omega⟩
        rw [show tallyM (a1, a2, a3, a4) (r :: rs)
            = tallyM (a1 + 1, a2 + 1, a3, a4) rs from by simp [tallyM, hs, h0], heq,
          show a1 + 1 + k = a1 + (k + 1) from by omega,
          show a2 + 1 + a = a2 + (a + 1) from by omega]
      · rcases ih (a1 + 1) a2 (a3 + 1) a4 hok' with ⟨k, a, b, c, heq, hsum, hlen⟩
        refine ⟨k + 1, a, b + 1, c, ?_, by omega, by simp only [List.length_cons]; omega⟩
        rw [show tallyM (a1, a2, a3, a4) (r :: rs)
            = tallyM (a1 + 1, a2, a3 + 1, a4) rs from by simp [tallyM, hs, h0], heq,
          show a1 + 1 + k = a1 + (k + 1) from by omega,
          show a3 + 1 + b = a3 + (b + 1) from by omega]
      · rcases ih (a1 + 1) a2 a3 (a4 + 1) hok' with ⟨k, a, b, c, heq, hsum, hlen⟩
        refine ⟨k + 1, a, b, c + 1, ?_, by omega, by simp only [List.length_cons]; omega⟩
        rw [show tallyM (a1, a2, a3, a4) (r :: rs)
            = tallyM (a1 + 1, a2, a3, a4 + 1) rs from by simp [tallyM, hs, h0], heq,
          show a1 + 1 + k = a1 + (k + 1) from by omega,
          show a4 + 1 + c = a4 + (c + 1) from by omega]
    · have hs' : r.success = false := by revert hs; cases r.success <;> simp
      rcases ih a1 a2 a3 a4 hok' with ⟨k, a, b, c, heq, hsum, hlen⟩
      refine ⟨k, a, b, c, ?_, hsum, by simp only [List.length_cons]; omega⟩
      rw [show tallyM (a1, a2, a3, a4) (r :: rs) = tallyM (a1, a2, a3, a4) rs from by
        simp [tallyM, hs'], heq]

/-- Shape of the batch endpoint on a non-empty batch under a safe
environment. -/
theorem batch_shape (env : Env) (schools : List School)
    (hsafe : Env.BatchSafe env) (hne : schools ≠ []) :
    ∃ k a b c, a + b + c = k ∧ k ≤ schools.length ∧
      get_cluster_batch env schools
        = some (BatchResult.ok (schools.map (predict_single env))
            (batchSummary env schools.length k a b c)) := by
  have hok : ∀ r ∈ schools.map (predict_single env), r.success = true →
      r.cluster_id = some 0 ∨ r.cluster_id = some 1 ∨ r.cluster_id = some 2 := by
    intro r hr hs
    rcases List.mem_map.mp hr with ⟨sc, _, rfl⟩
    exact outcome_ok env hsafe sc hs
  rcases tallyM_spec (schools.map (predict_single env)) 0 0 0 0 hok with
    ⟨k, a, b, c, heq, hsum, hlen⟩
  simp only [Nat.zero_add] at heq
  refine ⟨k, a, b, c, hsum, by rw [List.length_map] at hlen; exact hlen, ?_⟩
  rw [get_cluster_batch, if_neg hne, heq, List.length_map]

theorem pyRound1_zero : pyRound1 0 = 0 := by
  norm_num [pyRound1, rhe]

theorem rhe_bounds (q : ℚ) (h0 : 0 ≤ q) (h1 : q ≤ 1000) : 0 ≤ rhe q ∧ rhe q ≤ 1000 := by
  have hf0 : 0 ≤ ⌊q⌋ := Int.floor_nonneg.mpr h0
  have hfle : (⌊q⌋ : ℚ) ≤ q := Int.floor_le q
  have hf1000 : ⌊q⌋ ≤ 1000 := by
    have h := Int.floor_le_floor h1
    rwa [show ⌊(1000 : ℚ)⌋ = 1000 from by norm_num] at h
  have key : (1 : ℚ)/2 ≤ q - (⌊q⌋ : ℚ) → ⌊q⌋ ≤ 999 := by
    intro h
    have hcast : (⌊q⌋ : ℚ) < 1000 := by linarith
    have : ⌊q⌋ < 1000 := by exact_mod_cast hcast
    omega
  unfold rhe
  split_ifs with hr1 hr2 hpar
  · exact ⟨hf0, hf1000⟩
  · have := key (by linarith)
    exact ⟨by omega, by omega⟩
  · exact ⟨hf0, hf1000⟩
  · have := key (by linarith)
    exact ⟨by omega, by omega⟩

theorem pyRound1_bounds (q : ℚ) (h0 : 0 ≤ q) (h1 : q ≤ 100) :
    0 ≤ pyRound1 q ∧ pyRound1 q ≤ 100 := by
  have h := rhe_bounds (q * 10) (by positivity) (by linarith)
  have hc0 : (0 : ℚ) ≤ (rhe (q * 10) : ℚ) := by exact_mod_cast h.1
  have hc1 : ((rhe (q * 10) : ℚ)) ≤ 1000 := by exact_mod_cast h.2
  unfold pyRound1
  constructor
  · positivity
  · linarith

theorem clusterPercentage_of_pos (cnt successful : Nat) (h : 0 < successful) :
    clusterPercentage cnt successful
      = pyRound1 ((100 * cnt : ℚ) / (successful : ℚ)) := by
  unfold clusterPercentage
  rw [if_pos h]
  congr 1
  ring

theorem clusterPercentage_zero_succ (cnt : Nat) : clusterPercentage cnt 0 = 0 := by
  unfold clusterPercentage
  rw [if_neg (by omega)]
  exact pyRound1_zero

theorem clusterPercentage_bounds (cnt successful : Nat) (h : cnt ≤ successful) :
    0 ≤ clusterPercentage cnt successful ∧ clusterPercentage cnt successful ≤ 100 := by
  unfold clusterPercentage
  by_cases hp : 0 < successful
  · rw [if_pos hp]
    apply pyRound1_bounds
    · positivity
    · have hc : (cnt : ℚ) ≤ (successful : ℚ) := by exact_mod_cast h
      have hs : (0 : ℚ) < (successful : ℚ) := by exact_mod_cast hp
      have hdiv : (cnt : ℚ) / (successful : ℚ) ≤ 1 := by
        rw [div_le_one hs]; exact hc
      linarith
  · rw [if_neg hp, pyRound1_zero]
    norm_num

theorem dominantOf_cases (a b c : Nat) :
    (dominantOf a b c = 0 ∧ b ≤ a ∧ c ≤ a) ∨
    (dominantOf a b c = 1 ∧ a < b ∧ c ≤ b) ∨
    (dominantOf a b c = 2 ∧ a < c ∧ b < c) := by
  unfold dominantOf
  split_ifs <;> omega

theorem batchSummary_dominant (env : Env) (n k a b c : Nat) :
    ∃ dst ∈ (batchSummary env n k a b c).clusters,
      dst.id = (batchSummary env n k a b c).dominant_cluster ∧
      (∀ st ∈ (batchSummary env n k a b c).clusters, st.count ≤ dst.count) ∧
      (∀ st ∈ (batchSummary env n k a b c).clusters,
        st.count = dst.count → (batchSummary env n k a b c).dominant_cluster ≤ st.id) := by
  rcases dominantOf_cases a b c with ⟨hd, hx, hy⟩ | ⟨hd, hx, hy⟩ | ⟨hd, hx, hy⟩
  · refine ⟨{ id := 0, name := get_cluster_name 0, count := a,
              percentage := clusterPercentage a k, color := get_cluster_color 0 },
      by simp [batchSummary], ?_, ?_, ?_⟩
    · exact hd.symm
    · intro st hst
      simp only [batchSummary, List.mem_cons, List.not_mem_nil, or_false] at hst
      rcases hst with rfl | rfl | rfl <;> (try dsimp only) <;> omega
    · intro st hst _
      simp only [batchSummary, List.mem_cons, List.not_mem_nil, or_false] at hst
      rcases hst with rfl | rfl | rfl <;> simp only [batchSummary, hd] <;> omega
  · refine ⟨{ id := 1, name := get_cluster_name 1, count := b,
              percentage := clusterPercentage b k, color := get_cluster_color 1 },
      by simp [batchSummary], ?_, ?_, ?_⟩
    · exact hd.symm
    · intro st hst
      simp only [batchSummary, List.mem_cons, List.not_mem_nil, or_false] at hst
      rcases hst with rfl | rfl | rfl <;> (try dsimp only) <;> omega
    · intro st hst heq
      simp only [batchSummary, List.mem_cons, List.not_mem_nil, or_false] at hst
      rcases hst with rfl | rfl | rfl <;> (try dsimp only at heq ⊢) <;>
        simp only [batchSummary, hd] <;> omega
  · refine ⟨{ id := 2, name := get_cluster_name 2, count := c,
              percentage := clusterPercentage c k, color := get_cluster_color 2 },
      by simp [batchSummary], ?_, ?_, ?_⟩
    · exact hd.symm
    · intro st hst
      simp only [batchSummary, List.mem_cons, List.not_mem_nil, or_false] at hst
      rcases hst with rfl | rfl | rfl <;> (try dsimp only) <;> omega
    · intro st hst heq
      simp only [batchSummary, List.mem_cons, List.not_mem_nil, or_false] at hst
      rcases hst with rfl | rfl | rfl <;> (try dsimp only at heq ⊢) <;>
        simp only [batchSummary, hd] <;> omega

/-! ### Claims C3, C7, C8: the batch aggregator -/

/-- C3: for every non-empty batch (under the batch-safety contract on
the ML collaborator), the endpoint returns a summary in which
successful plus failed predictions equal the batch size, the three
per-cluster counts sum to the successful count, every percentage is
`round(100 * count / successful, 1)` (computed over the successful
predictions only) and lies in [0, 100], and all percentages are 0
when no prediction succeeded. -/
theorem c3_batch_summary (env : Env) (schools : List School)
    (hsafe : Env.BatchSafe env) (hne : schools ≠ []) :
    ∃ rs sm, get_cluster_batch env schools = some (BatchResult.ok rs sm) ∧
      sm.total_schools = schools.length ∧
      sm.successful_predictions + sm.failed_predictions = sm.total_schools ∧
      (sm.clusters.map (fun st => st.count)).sum = sm.successful_predictions ∧
      ∀ st ∈ sm.clusters,
        (0 < sm.successful_predictions →
          st.percentage
            = pyRound1 ((100 * st.count : ℚ) / (sm.successful_predictions : ℚ))) ∧
        0 ≤ st.percentage ∧ st.percentage ≤ 100 ∧
        (sm.successful_predictions = 0 → st.percentage = 0) := by
  rcases batch_shape env schools hsafe hne with ⟨k, a, b, c, hsum, hlen, hb⟩
  refine ⟨_, _, hb, rfl, ?_, ?_, ?_⟩
  · simp only [batchSummary]
    omega
  · simp only [batchSummary, List.map_cons, List.map_nil, List.sum_cons, List.sum_nil]
    omega
  · intro st hst
    simp only [batchSummary, List.mem_cons, List.not_mem_nil, or_false] at hst
    rcases hst with rfl | rfl | rfl <;>
      refine ⟨fun hpos => ?_, (clusterPercentage_bounds _ k (by omega)).1,
        (clusterPercentage_bounds _ k (by omega)).2, fun h0 => ?_⟩ <;>
      first
        | exact clusterPercentage_of_pos _ k hpos
        | (have hk : k = 0 := h0
           subst hk
           exact clusterPercentage_zero_succ _)

/-- C3 witness: a concrete two-school rule-based batch. -/
theorem c3_batch_summary_witness :
    ∃ rs sm,
      get_cluster_batch ⟨false, fun _ => none⟩
          [⟨"tubigon west".toList, "bohol".toList⟩,
           ⟨"plain elem".toList, "somewhere".toList⟩]
        = some (BatchResult.ok rs sm) ∧
      sm.successful_predictions + sm.failed_predictions = sm.total_schools := by
  obtain ⟨rs, sm, h1, _, h3, _⟩ :=
    c3_batch_summary ⟨false, fun _ => none⟩
      [⟨"tubigon west".toList, "bohol".toList⟩,
       ⟨"plain elem".toList, "somewhere".toList⟩]
      (fun t c h => Option.noConfusion h) (by decide)
  exact ⟨rs, sm, h1, h3⟩

/-- C7: for every non-empty batch (under the batch-safety contract),
`dominant_cluster` is a cluster id whose count is maximal, and any
cluster with the same count has an id at least as large (ties break
to the lowest id, following the dict iteration order 0, 1, 2). -/
theorem c7_dominant_cluster (env : Env) (schools : List School)
    (hsafe : Env.BatchSafe env) (hne : schools ≠ []) :
    ∃ rs sm, get_cluster_batch env schools = some (BatchResult.ok rs sm) ∧
      ∃ dst ∈ sm.clusters, dst.id = sm.dominant_cluster ∧
        (∀ st ∈ sm.clusters, st.count ≤ dst.count) ∧
        (∀ st ∈ sm.clusters, st.count = dst.count → sm.dominant_cluster ≤ st.id) := by
  rcases batch_shape env schools hsafe hne with ⟨k, a, b, c, hsum, hlen, hb⟩
  exact ⟨_, _, hb, batchSummary_dominant env schools.length k a b c⟩

/-- C7 witness: a four-school batch with counts 2, 2, 0 over clusters
0, 1, 2; the tie between clusters 0 and 1 breaks to cluster 0. -/
theorem c7_dominant_cluster_witness :
    dominantClusterOf (get_cluster_batch ⟨false, fun _ => none⟩
        [⟨"inabanga east".toList, "bohol".toList⟩,
         ⟨"dagohoy elem".toList, "bohol".toList⟩,
         ⟨"plain elem".toList, "somewhere".toList⟩,
         ⟨"another elem".toList, "somewhere".toList⟩]) = some 0 ∧
    (∃ rs sm,
      get_cluster_batch ⟨false, fun _ => none⟩
          [⟨"inabanga east".toList, "bohol".toList⟩,
           ⟨"dagohoy elem".toList, "bohol".toList⟩,
           ⟨"plain elem".toList, "somewhere".toList⟩,
           ⟨"another elem".toList, "somewhere".toList⟩]
        = some (BatchResult.ok rs sm) ∧
      ∃ dst ∈ sm.clusters, dst.id = sm.dominant_cluster ∧
        (∀ st ∈ sm.clusters, st.count ≤ dst.count) ∧
        (∀ st ∈ sm.clusters, st.count = dst.count → sm.dominant_cluster ≤ st.id)) :=
  ⟨by decide,
    c7_dominant_cluster ⟨false, fun _ => none⟩
      [⟨"inabanga east".toList, "bohol".toList⟩,
       ⟨"dagohoy elem".toList, "bohol".toList⟩,
       ⟨"plain elem".toList, "somewhere".toList⟩,
       ⟨"another elem".toList, "somewhere".toList⟩]
      (fun t c h => Option.noConfusion h) (by decide)⟩

/-- C8: the batch endpoint maps the empty batch to exactly the
error-shaped response with message "No schools provided" and
`success = false`; this shape is a different constructor from the
normal response shape (no results, no summary), and
`get_cluster_batch` is total on this input, so nothing is raised. -/
theorem c8_empty_batch (env : Env) :
    get_cluster_batch env [] = some (BatchResult.error "No schools provided".toList false) ∧
    ∀ (m : Str) (bb : Bool) (rs : List Outcome) (sm : Summary),
      BatchResult.error m bb ≠ BatchResult.ok rs sm := by
  constructor
  · rw [get_cluster_batch, if_pos rfl]
  · intro m bb rs sm h
    exact BatchResult.noConfusion h

/-- C8 witness: the empty-batch response at a concrete environment. -/
theorem c8_empty_batch_witness :
    get_cluster_batch ⟨false, fun _ => none⟩ []
      = some (BatchResult.error "No schools provided".toList false) :=
  (c8_empty_batch ⟨false, fun _ => none⟩).1

/-- C9 witness: the table conjuncts of the amended claim applied at
a concrete environment and a concrete successful prediction. -/
theorem c9_cluster_table_witness :
    (health_check ⟨true, fun _ => some 0⟩).2.2
      = [(0, get_cluster_name 0, get_cluster_color 0),
         (1, get_cluster_name 1, get_cluster_color 1),
         (2, get_cluster_name 2, get_cluster_color 2)] ∧
    (∃ c, (predict_single ⟨true, fun _ => some 0⟩ ⟨"n".toList, "m".toList⟩).cluster_id
        = some c ∧
      (predict_single ⟨true, fun _ => some 0⟩ ⟨"n".toList, "m".toList⟩).cluster_name
        = get_cluster_name c ∧
      (predict_single ⟨true, fun _ => some 0⟩ ⟨"n".toList, "m".toList⟩).cluster_color
        = some (get_cluster_color c)) :=
  ⟨c9_cluster_table.2.1 ⟨true, fun _ => some 0⟩,
   c9_cluster_table.2.2.1 ⟨true, fun _ => some 0⟩ ⟨"n".toList, "m".toList⟩ (by decide)⟩
